import Mathlib

/-!
Verification of the mixed-precision training core of ColossalAI:
the loss-scaling policy (DynamicGradScaler) and the optimizer wrapper
(FP16Optimizer) from colossalai/amp/naive_amp/_fp16_optimizer.py.

Scalar tensor values (loss scale, parameter data, gradients) are modelled
as rationals; a gradient additionally carries a finiteness flag standing
for "contains no NaN/Inf".  One-element CUDA tensors holding a scalar are
modelled by the scalar itself.
-/

namespace ColossalAI

/-- State of DynamicGradScaler (source lines 42-139).  The one-element CUDA
float tensors holding scale, min_scale, growth_factor and backoff_factor are
modelled as rationals; the trackers are the Python integers.  The hysteresis
tracker is an integer because the source keeps decrementing it below zero on
repeated overflows. -/
structure DynamicGradScaler where
  scale : ℚ
  min_scale : ℚ
  growth_factor : ℚ
  backoff_factor : ℚ
  growth_interval : ℕ
  hysteresis : ℤ
  max_scale : Option ℚ
  growth_tracker : ℕ
  hysteresis_tracker : ℤ
deriving DecidableEq, Repr

/-- DynamicGradScaler.update (source lines 95-125).  On overflow the growth
tracker is reset, the hysteresis tracker is decremented and, once it is ≤ 0,
the scale backs off (floored at min_scale).  Without overflow the growth
tracker is incremented and, on reaching growth_interval, both trackers reset
and the scale grows unless max_scale is set and already reached
(the comparison is the source's scale >= max_scale check). -/
def DynamicGradScaler.update (s : DynamicGradScaler) (found_inf : Bool) : DynamicGradScaler :=
  if found_inf then
    let ht := s.hysteresis_tracker - 1
    { s with
      growth_tracker := 0
      hysteresis_tracker := ht
      scale := if ht ≤ 0 then max (s.scale * s.backoff_factor) s.min_scale else s.scale }
  else
    let gt := s.growth_tracker + 1
    if gt = s.growth_interval then
      { s with
        growth_tracker := 0
        hysteresis_tracker := s.hysteresis
        scale :=
          match s.max_scale with
          | some m => if m ≤ s.scale then s.scale else s.scale * s.growth_factor
          | none => s.scale * s.growth_factor }
    else
      { s with growth_tracker := gt }

/-- Constructor arguments of DynamicGradScaler (source lines 44-52). -/
structure ScalerConfig where
  initial_scale : ℚ
  min_scale : ℚ
  growth_factor : ℚ
  backoff_factor : ℚ
  growth_interval : ℕ
  hysteresis : ℤ
  max_scale : Option ℚ
deriving DecidableEq, Repr

/-- The assertions checked by DynamicGradScaler.__init__ (source lines 55-77). -/
def ScalerConfig.valid (c : ScalerConfig) : Prop :=
  0 < c.initial_scale ∧
  0 < c.min_scale ∧ c.min_scale ≤ c.initial_scale ∧
  1 < c.growth_factor ∧
  0 < c.backoff_factor ∧ c.backoff_factor < 1 ∧
  0 < c.growth_interval ∧
  0 < c.hysteresis ∧
  (∀ m, c.max_scale = some m → 1 < m ∧ c.initial_scale ≤ m)

/-- The scaler state produced by DynamicGradScaler.__init__ (source lines
55-82): trackers start at 0 and hysteresis. -/
def DynamicGradScaler.ofConfig (c : ScalerConfig) : DynamicGradScaler :=
  { scale := c.initial_scale
    min_scale := c.min_scale
    growth_factor := c.growth_factor
    backoff_factor := c.backoff_factor
    growth_interval := c.growth_interval
    hysteresis := c.hysteresis
    max_scale := c.max_scale
    growth_tracker := 0
    hysteresis_tracker := c.hysteresis }

/-- Run a sequence of update(found_inf) calls. -/
def DynamicGradScaler.runUpdates (s : DynamicGradScaler) (us : List Bool) : DynamicGradScaler :=
  us.foldl DynamicGradScaler.update s

/-- The scale observed before any update and after each update of a sequence. -/
def DynamicGradScaler.scaleTrace (s : DynamicGradScaler) : List Bool → List ℚ
  | [] => [s.scale]
  | b :: bs => s.scale :: (s.update b).scaleTrace bs

/-! ## Invariant machinery for the scaler -/

/-- Unfolding of update on an overflow step. -/
theorem DynamicGradScaler.update_true_eq (s : DynamicGradScaler) :
    s.update true =
      { s with
        growth_tracker := 0
        hysteresis_tracker := s.hysteresis_tracker - 1
        scale := if s.hysteresis_tracker - 1 ≤ 0
          then max (s.scale * s.backoff_factor) s.min_scale else s.scale } := rfl

/-- Unfolding of update on a non-overflow step. -/
theorem DynamicGradScaler.update_false_eq (s : DynamicGradScaler) :
    s.update false =
      if s.growth_tracker + 1 = s.growth_interval then
        { s with
          growth_tracker := 0
          hysteresis_tracker := s.hysteresis
          scale :=
            match s.max_scale with
            | some m => if m ≤ s.scale then s.scale else s.scale * s.growth_factor
            | none => s.scale * s.growth_factor }
      else { s with growth_tracker := s.growth_tracker + 1 } := rfl

/-- The configuration fields of the scaler state are never touched by update. -/
theorem DynamicGradScaler.update_config_fields (s : DynamicGradScaler) (b : Bool) :
    (s.update b).min_scale = s.min_scale ∧
    (s.update b).growth_factor = s.growth_factor ∧
    (s.update b).backoff_factor = s.backoff_factor ∧
    (s.update b).max_scale = s.max_scale ∧
    (s.update b).growth_interval = s.growth_interval ∧
    (s.update b).hysteresis = s.hysteresis := by
  cases b
  · rw [DynamicGradScaler.update_false_eq]
    split <;> simp
  · rw [DynamicGradScaler.update_true_eq]
    simp

/-- Inductive invariant tying a scaler state to the configuration it was
built from: configuration fields intact, scale at least min_scale and,
when max_scale is set, strictly below max_scale · growth_factor. -/
def ScalerInv (c : ScalerConfig) (s : DynamicGradScaler) : Prop :=
  s.min_scale = c.min_scale ∧
  s.growth_factor = c.growth_factor ∧
  s.backoff_factor = c.backoff_factor ∧
  s.max_scale = c.max_scale ∧
  c.min_scale ≤ s.scale ∧
  (∀ m, c.max_scale = some m → s.scale < m * c.growth_factor)

theorem scalerInv_ofConfig (c : ScalerConfig) (hc : c.valid) :
    ScalerInv c (DynamicGradScaler.ofConfig c) := by
  obtain ⟨h0, hmin, hminle, hg, hb0, hb1, hgi, hh, hmax⟩ := hc
  refine ⟨rfl, rfl, rfl, rfl, hminle, ?_⟩
  intro m hm
  obtain ⟨hm1, hile⟩ := hmax m hm
  have hmpos : (0:ℚ) < m := lt_trans one_pos hm1
  calc (DynamicGradScaler.ofConfig c).scale = c.initial_scale := rfl
    _ ≤ m := hile
    _ < m * c.growth_factor := by
        nlinarith

theorem scalerInv_update (c : ScalerConfig) (hc : c.valid) (s : DynamicGradScaler)
    (hs : ScalerInv c s) (b : Bool) : ScalerInv c (s.update b) := by
  obtain ⟨h0, hminpos, hminle, hg, hb0, hb1, hgi, hh, hmax⟩ := hc
  obtain ⟨e1, e2, e3, e4, hlo, hhi⟩ := hs
  have hspos : 0 < s.scale := lt_of_lt_of_le hminpos hlo
  have cfg := DynamicGradScaler.update_config_fields s b
  refine ⟨cfg.1.trans e1, cfg.2.1.trans e2, cfg.2.2.1.trans e3, cfg.2.2.2.1.trans e4, ?_, ?_⟩
  · -- lower bound is preserved
    cases b with
    | false =>
      rw [DynamicGradScaler.update_false_eq]
      split
      · show c.min_scale ≤ (match s.max_scale with
          | some m => if m ≤ s.scale then s.scale else s.scale * s.growth_factor
          | none => s.scale * s.growth_factor)
        have hgrow : s.scale ≤ s.scale * s.growth_factor := by
          rw [e2]; nlinarith
        cases hm : s.max_scale with
        | none => exact le_trans hlo hgrow
        | some m =>
          by_cases hms : m ≤ s.scale
          · simp only [hms, if_true]
            exact hlo
          · simp only [hms, if_false]
            exact le_trans hlo hgrow
      · exact hlo
    | true =>
      rw [DynamicGradScaler.update_true_eq]
      show c.min_scale ≤ (if s.hysteresis_tracker - 1 ≤ 0
        then max (s.scale * s.backoff_factor) s.min_scale else s.scale)
      split
      · rw [e1]
        exact le_max_right _ _
      · exact hlo
  · -- strict upper bound is preserved
    intro m hm
    obtain ⟨hm1, hile⟩ := hmax m hm
    have hmpos : (0:ℚ) < m := lt_trans one_pos hm1
    have hsm : s.scale < m * c.growth_factor := hhi m hm
    cases b with
    | false =>
      rw [DynamicGradScaler.update_false_eq]
      split
      · show (match s.max_scale with
          | some mm => if mm ≤ s.scale then s.scale else s.scale * s.growth_factor
          | none => s.scale * s.growth_factor) < m * c.growth_factor
        rw [e4, hm]
        by_cases hms : m ≤ s.scale
        · simp only [hms, if_true]
          exact hsm
        · simp only [hms, if_false]
          push_neg at hms
          rw [e2]
          exact mul_lt_mul_of_pos_right hms (lt_trans one_pos hg)
      · exact hsm
    | true =>
      rw [DynamicGradScaler.update_true_eq]
      show (if s.hysteresis_tracker - 1 ≤ 0
        then max (s.scale * s.backoff_factor) s.min_scale else s.scale) < m * c.growth_factor
      split
      · rw [e1, e3]
        refine max_lt ?_ (lt_of_le_of_lt hminle ?_)
        · nlinarith
        · calc c.initial_scale ≤ m := hile
            _ < m * c.growth_factor := by nlinarith
      · exact hsm

theorem scalerInv_runUpdates (c : ScalerConfig) (hc : c.valid) (s : DynamicGradScaler)
    (hs : ScalerInv c s) (us : List Bool) : ScalerInv c (s.runUpdates us) := by
  induction us generalizing s with
  | nil => exact hs
  | cons b bs ih =>
    exact ih (s.update b) (scalerInv_update c hc s hs b)

/-! ## Claim theorems about the scaler -/

/-- Configuration used to exhibit the overshoot of max_scale:
initial 3, min 1, growth 2, backoff 1/2, interval 1, hysteresis 1, max 4. -/
def c3cfg : ScalerConfig := ⟨3, 1, 2, 1/2, 1, 1, some 4⟩

/-- C3 counterexample: a valid configuration (initial_scale 3, max_scale 4,
growth_factor 2, growth_interval 1) whose scale, after one update(False),
equals 6 and so exceeds max_scale — refuting the claimed invariant
scale ≤ max_scale. -/
theorem scale_can_exceed_max_scale :
    c3cfg.valid ∧ c3cfg.max_scale = some 4 ∧
    ((DynamicGradScaler.ofConfig c3cfg).runUpdates [false]).scale = 6 ∧
    ¬ ((DynamicGradScaler.ofConfig c3cfg).runUpdates [false]).scale ≤ 4 := by
  refine ⟨?_, rfl, ?_, ?_⟩ <;>
    norm_num [ScalerConfig.valid, DynamicGradScaler.runUpdates, DynamicGradScaler.update,
      DynamicGradScaler.ofConfig, c3cfg]

/-- C3 (amended): for every valid scaler configuration and every sequence of
update(found_overflow) calls, min_scale ≤ scale holds after every call, and
when max_scale is set, scale < max_scale · growth_factor after every call
(the scale is not clamped to max_scale itself: growth is only suppressed
once the scale has already reached max_scale, so a single growth step may
overshoot it). -/
theorem scaler_scale_bounds (c : ScalerConfig) (hc : c.valid) (us : List Bool) :
    c.min_scale ≤ ((DynamicGradScaler.ofConfig c).runUpdates us).scale ∧
    (∀ m, c.max_scale = some m →
      ((DynamicGradScaler.ofConfig c).runUpdates us).scale < m * c.growth_factor) := by
  have h := scalerInv_runUpdates c hc (DynamicGradScaler.ofConfig c)
    (scalerInv_ofConfig c hc) us
  exact ⟨h.2.2.2.2.1, h.2.2.2.2.2⟩

/-- Witness for scaler_scale_bounds at the concrete configuration c3cfg and
the sequence [false, true]. -/
theorem scaler_scale_bounds_witness :
    (1:ℚ) ≤ ((DynamicGradScaler.ofConfig c3cfg).runUpdates [false, true]).scale ∧
    ((DynamicGradScaler.ofConfig c3cfg).runUpdates [false, true]).scale < 4 * 2 := by
  have h := scaler_scale_bounds c3cfg
    (by norm_num [ScalerConfig.valid, c3cfg]) [false, true]
  exact ⟨h.1, h.2 4 rfl⟩

/-- The concrete configuration of the spec's literal trace scenario:
initial 8, min 1, growth 2, backoff 1/2, interval 2, hysteresis 1, no max. -/
def cfg4 : ScalerConfig := ⟨8, 1, 2, 1/2, 2, 1, none⟩

/-- C4 counterexample: the update sequence [False, False, True, False, False]
does not produce the claimed scale trace [8, 8, 16, 8, 8, 8] — the fifth
update is the second consecutive non-overflow after the backoff, so it grows
the scale to 16 again. -/
theorem literal_trace_not_as_claimed :
    ¬ ((DynamicGradScaler.ofConfig cfg4).scaleTrace [false, false, true, false, false]
        = [8, 8, 16, 8, 8, 8]) := by
  norm_num [DynamicGradScaler.scaleTrace, DynamicGradScaler.update,
    DynamicGradScaler.ofConfig, cfg4]

/-- C4 (amended): with initial_scale 8, growth_factor 2, backoff_factor 1/2,
growth_interval 2, hysteresis 1, min_scale 1 and no max_scale, the call
sequence update(False), update(False), update(True), update(False),
update(False) produces the scale sequence [8, 8, 16, 8, 8, 16]. -/
theorem literal_trace :
    (DynamicGradScaler.ofConfig cfg4).scaleTrace [false, false, true, false, false]
      = [8, 8, 16, 8, 8, 16] := by
  norm_num [DynamicGradScaler.scaleTrace, DynamicGradScaler.update,
    DynamicGradScaler.ofConfig, cfg4]

theorem DynamicGradScaler.runUpdates_nil (s : DynamicGradScaler) :
    s.runUpdates [] = s := rfl

theorem DynamicGradScaler.runUpdates_cons (s : DynamicGradScaler) (b : Bool) (bs : List Bool) :
    s.runUpdates (b :: bs) = (s.update b).runUpdates bs := rfl

theorem DynamicGradScaler.runUpdates_singleton (s : DynamicGradScaler) (b : Bool) :
    s.runUpdates [b] = s.update b := rfl

theorem DynamicGradScaler.runUpdates_append (s : DynamicGradScaler) (as bs : List Bool) :
    s.runUpdates (as ++ bs) = (s.runUpdates as).runUpdates bs := by
  simp [DynamicGradScaler.runUpdates, List.foldl_append]

/-- While the hysteresis budget is not exhausted, consecutive overflow updates
only decrement the hysteresis tracker; the scale and the backoff/min
configuration are untouched. -/
theorem runUpdates_true_below_budget (k : ℕ) (s : DynamicGradScaler)
    (hk : (k : ℤ) < s.hysteresis_tracker) :
    (s.runUpdates (List.replicate k true)).scale = s.scale ∧
    (s.runUpdates (List.replicate k true)).hysteresis_tracker = s.hysteresis_tracker - k ∧
    (s.runUpdates (List.replicate k true)).backoff_factor = s.backoff_factor ∧
    (s.runUpdates (List.replicate k true)).min_scale = s.min_scale := by
  induction k generalizing s with
  | zero => simp [DynamicGradScaler.runUpdates]
  | succ k ih =>
    rw [List.replicate_succ, DynamicGradScaler.runUpdates_cons]
    have hpos : ¬ (s.hysteresis_tracker - 1 ≤ 0) := by omega
    have hupd : s.update true =
        { s with growth_tracker := 0, hysteresis_tracker := s.hysteresis_tracker - 1 } := by
      rw [DynamicGradScaler.update_true_eq, if_neg hpos]
    have hscale : (s.update true).scale = s.scale := by rw [hupd]
    have hht : (s.update true).hysteresis_tracker = s.hysteresis_tracker - 1 := by rw [hupd]
    have hk' : (k : ℤ) < (s.update true).hysteresis_tracker := by
      rw [hht]; omega
    obtain ⟨h1, h2, h3, h4⟩ := ih (s.update true) hk'
    have cfg := DynamicGradScaler.update_config_fields s true
    refine ⟨h1.trans hscale, ?_, h3.trans cfg.2.2.1, h4.trans cfg.1⟩
    rw [h2, hht]
    omega

/-- The concrete state refuting the h-versus-(h+1) count:
hysteresis 1 with a fresh budget. -/
def c5s : DynamicGradScaler := ⟨8, 1, 2, 1/2, 2, 1, none, 0, 1⟩

/-- C5 counterexample: with hysteresis h = 1 and a fresh budget, the very
first consecutive update(True) already changes the scale (8 to 4), so it is
not the case that exactly h consecutive overflow updates leave the scale
unchanged with the (h+1)-th being the first decrease. -/
theorem first_overflow_already_backs_off :
    c5s.hysteresis = 1 ∧ c5s.hysteresis_tracker = c5s.hysteresis ∧ c5s.scale = 8 ∧
    (c5s.runUpdates (List.replicate 1 true)).scale = 4 ∧
    ¬ (c5s.runUpdates (List.replicate 1 true)).scale = c5s.scale := by
  norm_num [c5s, DynamicGradScaler.runUpdates, DynamicGradScaler.update]

/-- C5 (amended): for a scaler with hysteresis = h > 0 starting from a fresh
hysteresis budget, exactly h − 1 consecutive update(True) calls leave the
scale unchanged, and the h-th consecutive update(True) is the first that
changes it, setting scale to max(scale × backoff_factor, min_scale) — a
strict decrease whenever scale > min_scale. -/
theorem hysteresis_consecutive_overflows (s : DynamicGradScaler) (n : ℕ)
    (hn : 0 < n) (hh : s.hysteresis = (n : ℤ)) (hfresh : s.hysteresis_tracker = (n : ℤ))
    (hb0 : 0 < s.backoff_factor) (hb1 : s.backoff_factor < 1) (hmin : 0 < s.min_scale) :
    (∀ k, k < n → (s.runUpdates (List.replicate k true)).scale = s.scale) ∧
    (s.runUpdates (List.replicate n true)).scale = max (s.scale * s.backoff_factor) s.min_scale ∧
    (s.min_scale < s.scale → (s.runUpdates (List.replicate n true)).scale < s.scale) := by
  have part1 : ∀ k, k < n → (s.runUpdates (List.replicate k true)).scale = s.scale := by
    intro k hk
    exact (runUpdates_true_below_budget k s (by rw [hfresh]; exact_mod_cast hk)).1
  obtain ⟨m, rfl⟩ : ∃ m, n = m + 1 := ⟨n - 1, by omega⟩
  have hbelow := runUpdates_true_below_budget m s (by rw [hfresh]; push_cast; omega)
  obtain ⟨hsc, hht, hbf, hmn⟩ := hbelow
  have part2 : (s.runUpdates (List.replicate (m + 1) true)).scale
      = max (s.scale * s.backoff_factor) s.min_scale := by
    rw [List.replicate_succ', DynamicGradScaler.runUpdates_append,
      DynamicGradScaler.runUpdates_singleton, DynamicGradScaler.update_true_eq]
    have hz : (s.runUpdates (List.replicate m true)).hysteresis_tracker - 1 ≤ 0 := by
      rw [hht, hfresh]; push_cast; omega
    show (if (s.runUpdates (List.replicate m true)).hysteresis_tracker - 1 ≤ 0
      then max ((s.runUpdates (List.replicate m true)).scale
            * (s.runUpdates (List.replicate m true)).backoff_factor)
          (s.runUpdates (List.replicate m true)).min_scale
      else (s.runUpdates (List.replicate m true)).scale)
        = max (s.scale * s.backoff_factor) s.min_scale
    rw [if_pos hz, hsc, hbf, hmn]
  refine ⟨part1, part2, ?_⟩
  intro hlt
  rw [part2]
  have hspos : 0 < s.scale := lt_trans hmin hlt
  exact max_lt (by nlinarith) hlt

/-- Witness state for the amended hysteresis property: hysteresis 2, fresh. -/
def c5w : DynamicGradScaler := ⟨8, 1, 2, 1/2, 2, 2, none, 0, 2⟩

/-- Witness for hysteresis_consecutive_overflows at hysteresis 2. -/
theorem hysteresis_consecutive_overflows_witness :
    (c5w.runUpdates (List.replicate 1 true)).scale = c5w.scale ∧
    (c5w.runUpdates (List.replicate 2 true)).scale
      = max (c5w.scale * c5w.backoff_factor) c5w.min_scale ∧
    (c5w.runUpdates (List.replicate 2 true)).scale < c5w.scale := by
  have h := hysteresis_consecutive_overflows c5w 2 (by norm_num) rfl rfl
    (by norm_num [c5w]) (by norm_num [c5w]) (by norm_num [c5w])
  exact ⟨h.1 1 (by norm_num), h.2.1, h.2.2 (by norm_num [c5w])⟩

/-- While the growth interval has not been reached, consecutive non-overflow
updates only increment the growth tracker. -/
theorem runUpdates_false_below_interval (k : ℕ) (s : DynamicGradScaler)
    (hk : s.growth_tracker + k < s.growth_interval) :
    s.runUpdates (List.replicate k false)
      = { s with growth_tracker := s.growth_tracker + k } := by
  induction k generalizing s with
  | zero => rfl
  | succ k ih =>
    rw [List.replicate_succ, DynamicGradScaler.runUpdates_cons]
    have hne : ¬ (s.growth_tracker + 1 = s.growth_interval) := by omega
    have hupd : s.update false = { s with growth_tracker := s.growth_tracker + 1 } := by
      rw [DynamicGradScaler.update_false_eq, if_neg hne]
    rw [hupd]
    have hk' : ({ s with growth_tracker := s.growth_tracker + 1 }
        : DynamicGradScaler).growth_tracker + k
        < ({ s with growth_tracker := s.growth_tracker + 1 }
        : DynamicGradScaler).growth_interval := by
      show s.growth_tracker + 1 + k < s.growth_interval
      omega
    rw [ih _ hk']
    show ({ s with growth_tracker := s.growth_tracker + 1 + k } : DynamicGradScaler) = _
    congr 1
    omega

/-- The concrete state refuting the clamp-to-max reading of growth:
scale 3, max_scale 4, growth_factor 2, growth_interval 1, tracker 0. -/
def c6s : DynamicGradScaler := ⟨3, 1, 2, 1/2, 1, 1, some 4, 0, 1⟩

/-- C6 counterexample: from growth_tracker 0 with growth_interval 1, one
update(False) multiplies the scale 3 by growth_factor 2 giving 6, which
exceeds the set max_scale 4 — the growth is not capped at max_scale. -/
theorem growth_overshoots_max_scale :
    c6s.growth_tracker = 0 ∧ c6s.growth_interval = 1 ∧ c6s.max_scale = some 4 ∧
    (c6s.runUpdates (List.replicate 1 false)).scale = 6 ∧
    ¬ (c6s.runUpdates (List.replicate 1 false)).scale ≤ 4 := by
  norm_num [c6s, DynamicGradScaler.runUpdates, DynamicGradScaler.update]

/-- C6 (amended): for every scaler state with growth_tracker = 0 and
growth_interval = n > 0, the first n − 1 update(False) calls leave the scale
unchanged; the n-th resets the trackers to growth_tracker = 0 and
hysteresis_tracker = hysteresis and multiplies the scale by growth_factor,
except that when max_scale is set and scale ≥ max_scale the scale stays
unchanged (growth is suppressed at saturation rather than clamped, so a
growth step from below max_scale may overshoot it). -/
theorem growth_after_interval (s : DynamicGradScaler) (n : ℕ) (hn : 0 < n)
    (hgi : s.growth_interval = n) (hgt : s.growth_tracker = 0) :
    (∀ k, k < n → (s.runUpdates (List.replicate k false)).scale = s.scale) ∧
    (s.runUpdates (List.replicate n false)).growth_tracker = 0 ∧
    (s.runUpdates (List.replicate n false)).hysteresis_tracker = s.hysteresis ∧
    (s.runUpdates (List.replicate n false)).scale =
      (match s.max_scale with
        | some m => if m ≤ s.scale then s.scale else s.scale * s.growth_factor
        | none => s.scale * s.growth_factor) := by
  have part1 : ∀ k, k < n → (s.runUpdates (List.replicate k false)).scale = s.scale := by
    intro k hk
    rw [runUpdates_false_below_interval k s (by omega)]
  obtain ⟨m, rfl⟩ : ∃ m, n = m + 1 := ⟨n - 1, by omega⟩
  have hbelow := runUpdates_false_below_interval m s (by omega)
  have hcond : ({ s with growth_tracker := s.growth_tracker + m }
      : DynamicGradScaler).growth_tracker + 1
      = ({ s with growth_tracker := s.growth_tracker + m }
      : DynamicGradScaler).growth_interval := by
    show s.growth_tracker + m + 1 = s.growth_interval
    omega
  have hfin : s.runUpdates (List.replicate (m + 1) false) =
      { s with
        growth_tracker := 0
        hysteresis_tracker := s.hysteresis
        scale :=
          match s.max_scale with
          | some mm => if mm ≤ s.scale then s.scale else s.scale * s.growth_factor
          | none => s.scale * s.growth_factor } := by
    rw [List.replicate_succ', DynamicGradScaler.runUpdates_append, hbelow,
      DynamicGradScaler.runUpdates_singleton, DynamicGradScaler.update_false_eq,
      if_pos hcond]
  exact ⟨part1, by rw [hfin], by rw [hfin], by rw [hfin]⟩

/-- Witness state for the amended growth property: scale 8, max_scale 32,
growth_interval 2, fresh trackers. -/
def c6w : DynamicGradScaler := ⟨8, 1, 2, 1/2, 2, 1, some 32, 0, 1⟩

/-- Witness for growth_after_interval at growth_interval 2. -/
theorem growth_after_interval_witness :
    (c6w.runUpdates (List.replicate 1 false)).scale = c6w.scale ∧
    (c6w.runUpdates (List.replicate 2 false)).growth_tracker = 0 ∧
    (c6w.runUpdates (List.replicate 2 false)).hysteresis_tracker = c6w.hysteresis ∧
    (c6w.runUpdates (List.replicate 2 false)).scale = c6w.scale * c6w.growth_factor := by
  have h := growth_after_interval c6w 2 (by norm_num) rfl rfl
  refine ⟨h.1 1 (by norm_num), h.2.1, h.2.2.1, ?_⟩
  have h4 := h.2.2.2
  norm_num [c6w] at h4
  norm_num [c6w]
  exact h4

/-! ## FP16Optimizer: data model -/

/-- A gradient buffer value: a magnitude together with a finiteness flag.
The flag models "the tensor contains no NaN/Inf"; the magnitude models the
tensor's numeric content for the exact scalar operations performed on it
(division by the positive finite loss scale preserves the flag). -/
structure GradVal where
  val : ℚ
  finite : Bool
deriving DecidableEq, Repr

/-- A parameter tensor: its value and its (possibly absent) gradient. -/
structure Param where
  data : ℚ
  grad : Option GradVal
deriving DecidableEq, Repr

/-- Modelled from the spec: has_inf_or_nan (imported from colossalai utils,
not under src) — scan a gradient buffer for a non-finite value; an absent
buffer contributes nothing. -/
def has_inf_or_nan : Option GradVal → Bool
  | none => false
  | some g => !g.finite

/-- State of FP16Optimizer (source lines 165-262).  The three tracked
parameter-group lists mirror _fp16_param_groups, _fp32_master_param_groups
and _fp32_param_groups.  The wrapped base optimizer's opaque internal state
(per-parameter momentum buffers etc.) is the type parameter σ; its parameter
groups are the masters plus the standalone fp32 parameters, represented by
the two tracked lists (the masters were substituted into its slots at
construction). -/
structure FP16Optimizer (σ : Type) where
  fp16_param_groups : List (List Param)
  fp32_master_param_groups : List (List Param)
  fp32_param_groups : List (List Param)
  grad_scaler : DynamicGradScaler
  clip_grad_max_norm : ℚ
  base_state : σ

/-- Groupwise concatenation of two group lists (groups beyond the shorter
list are kept). -/
def joinGroups : List (List Param) → List (List Param) → List (List Param)
  | [], hs => hs
  | g :: gs, [] => g :: gs
  | g :: gs, h :: hs => (g ++ h) :: joinGroups gs hs

/-- The base optimizer's param_groups after construction: per original group,
the substituted fp32 masters together with the standalone fp32 parameters.
(The source keeps them interleaved at their original positions inside one
list per group; no claimed property observes the intra-group order, which
only feeds per-element scans and in-place per-element writes.) -/
def optParamGroups {σ : Type} (st : FP16Optimizer σ) : List (List Param) :=
  joinGroups st.fp32_master_param_groups st.fp32_param_groups

/-! ## FP16Optimizer: step-phase operations -/

/-- _assign_grad_to_fp32_master_param on one paired group (source lines
315-321): iterating zip(fp16_group, fp32_master_group), each master's grad
becomes a full-precision copy of its paired live grad (the half-to-float
cast is value-preserving) and the live grad is cleared.  Elements beyond
the zip range are untouched, as with the source's in-place mutation. -/
def assignPair : List Param → List Param → List Param × List Param
  | g16, [] => (g16, [])
  | [], g32 => ([], g32)
  | p16 :: g16, p32 :: g32 =>
    let r := assignPair g16 g32
    ({ p16 with grad := none } :: r.1, { p32 with grad := p16.grad } :: r.2)

/-- The group-level zip of _assign_grad_to_fp32_master_param. -/
def assignGroups : List (List Param) → List (List Param) → List (List Param) × List (List Param)
  | gs16, [] => (gs16, [])
  | [], gs32 => ([], gs32)
  | g16 :: gs16, g32 :: gs32 =>
    let r := assignPair g16 g32
    let rs := assignGroups gs16 gs32
    (r.1 :: rs.1, r.2 :: rs.2)

/-- _assign_grad_to_fp32_master_param (source lines 315-321). -/
def assignGradToFp32MasterParam {σ : Type} (st : FP16Optimizer σ) : FP16Optimizer σ :=
  let r := assignGroups st.fp16_param_groups st.fp32_master_param_groups
  { st with fp16_param_groups := r.1, fp32_master_param_groups := r.2 }

/-- _unscale_grads (source lines 309-313): every present gradient of the
masters and of the standalone fp32 parameters is divided in place by the
loss scale; absent gradients are skipped by the source's None guard. -/
def unscaleGrads {σ : Type} (st : FP16Optimizer σ) : FP16Optimizer σ :=
  let d : List Param → List Param := fun g =>
    g.map fun p =>
      { p with grad := p.grad.map fun gv => { gv with val := gv.val / st.grad_scaler.scale } }
  { st with
    fp32_master_param_groups := st.fp32_master_param_groups.map d
    fp32_param_groups := st.fp32_param_groups.map d }

/-- The local overflow scan of _check_overflow (source lines 280-289): the
flag is reset, then set iff some gradient in some base-optimizer group is
non-finite (the source's per-group break does not change the resulting
disjunction). -/
def localOverflow {σ : Type} (st : FP16Optimizer σ) : Bool :=
  (optParamGroups st).any fun g => g.any fun p => has_inf_or_nan p.grad

/-- Modelled from the spec: the distributed all-reduce-max primitive over a
boolean overflow flag.  none is an absent group handle, making the
reduction a no-op; some peers carries the flags contributed by the other
group members during the rendezvous. -/
def allReduceMax (flag : Bool) (group : Option (List Bool)) : Bool :=
  match group with
  | none => flag
  | some peers => peers.foldl (· || ·) flag

/-- _check_overflow (source lines 280-299): local scan, then max-reduction
across the data-parallel group, then across the model-parallel group. -/
def checkOverflow {σ : Type} (st : FP16Optimizer σ) (dp mp : Option (List Bool)) : Bool :=
  allReduceMax (allReduceMax (localOverflow st) dp) mp

/-- Modelled from the spec: zero_gard_by_list with set_to_none=True (imported
from colossalai utils, not under src) — release every gradient to none.
zero_grad (source lines 301-304) walks the base optimizer's param groups,
i.e. the masters and the standalone fp32 parameters. -/
def zeroGrad {σ : Type} (st : FP16Optimizer σ) : FP16Optimizer σ :=
  let z : List Param → List Param := fun g => g.map fun p => { p with grad := none }
  { st with
    fp32_master_param_groups := st.fp32_master_param_groups.map z
    fp32_param_groups := st.fp32_param_groups.map z }

/-- _update_fp16_param_from_fp32_param on one paired group (source lines
323-332): each live fp16 parameter's value becomes its paired master's value
narrowed to half precision.  The source collects the pairs of all groups and
copies them either through one batched scale-by-1 kernel or a per-pair loop;
both are the same per-pair in-place write.  narrow is the float32-to-half
conversion of the copy kernel, a collaborator primitive. -/
def copyPair (narrow : ℚ → ℚ) : List Param → List Param → List Param
  | _, [] => []
  | [], g16 => g16
  | p32 :: g32, p16 :: g16 => { p16 with data := narrow p32.data } :: copyPair narrow g32 g16

/-- The group-level zip of _update_fp16_param_from_fp32_param;
first argument: master groups (source), second: live fp16 groups (dest). -/
def copyBackGroups (narrow : ℚ → ℚ) : List (List Param) → List (List Param) → List (List Param)
  | _, [] => []
  | [], gs16 => gs16
  | g32 :: gs32, g16 :: gs16 => copyPair narrow g32 g16 :: copyBackGroups narrow gs32 gs16

/-- _update_fp16_param_from_fp32_param (source lines 323-332). -/
def updateFp16ParamFromFp32Param {σ : Type} (narrow : ℚ → ℚ) (st : FP16Optimizer σ) :
    FP16Optimizer σ :=
  { st with fp16_param_groups :=
      copyBackGroups narrow st.fp32_master_param_groups st.fp16_param_groups }

/-- FP16Optimizer.step (source lines 334-358).  Collaborator operations are
passed as functions: baseStep is the wrapped optimizer's update rule acting
on its internal state and its registered parameters (the masters and the
standalone fp32 parameters); clipFn models clip_grad_norm_fp32 (not under
src — modelled from the spec: clips the base-optimizer gradients globally in
place and returns the clipped groups with the computed norm); narrow is the
float32-to-half narrowing of the copy-back kernel; dp and mp are the
overflow flags contributed by the data-parallel and the model-parallel peers
(none when that group is absent).
Returns the new state and the (success, grad_norm) pair. -/
def FP16Optimizer.step {σ : Type}
    (baseStep : σ → List (List Param) → List (List Param) →
      σ × List (List Param) × List (List Param))
    (clipFn : List (List Param) → List (List Param) →
      List (List Param) × List (List Param) × ℚ)
    (narrow : ℚ → ℚ)
    (dp mp : Option (List Bool))
    (st : FP16Optimizer σ) : FP16Optimizer σ × Bool × Option ℚ :=
  let st1 := assignGradToFp32MasterParam st
  let st2 := unscaleGrads st1
  let overflow := checkOverflow st2 dp mp
  let st3 := { st2 with grad_scaler := st2.grad_scaler.update overflow }
  if overflow then
    (zeroGrad st3, false, none)
  else
    let clipped :=
      if 0 < st3.clip_grad_max_norm then
        let c := clipFn st3.fp32_master_param_groups st3.fp32_param_groups
        ({ st3 with fp32_master_param_groups := c.1, fp32_param_groups := c.2.1 },
          some c.2.2)
      else (st3, none)
    let stc := clipped.1
    let grad_norm := clipped.2
    let r := baseStep stc.base_state stc.fp32_master_param_groups stc.fp32_param_groups
    let st4 := { stc with
      base_state := r.1
      fp32_master_param_groups := r.2.1
      fp32_param_groups := r.2.2 }
    let st5 := updateFp16ParamFromFp32Param narrow st4
    (st5, true, grad_norm)

/-! ## Step lemmas -/

/-- The parameter values of a group list. -/
def dataOf : List (List Param) → List (List ℚ) :=
  List.map (List.map Param.data)

theorem assignPair_fst_data : ∀ g16 g32 : List Param,
    ((assignPair g16 g32).1).map Param.data = g16.map Param.data
  | g16, [] => by cases g16 <;> rfl
  | [], _ :: _ => rfl
  | p16 :: g16, p32 :: g32 => by
    simp [assignPair, assignPair_fst_data g16 g32]

theorem assignPair_snd_data : ∀ g16 g32 : List Param,
    ((assignPair g16 g32).2).map Param.data = g32.map Param.data
  | g16, [] => by cases g16 <;> rfl
  | [], _ :: _ => rfl
  | p16 :: g16, p32 :: g32 => by
    simp [assignPair, assignPair_snd_data g16 g32]

theorem assignPair_fst_grad_none : ∀ g16 g32 : List Param, g16.length ≤ g32.length →
    ∀ p ∈ (assignPair g16 g32).1, p.grad = none
  | [], [], _ => by simp [assignPair]
  | _ :: _, [], h => by simp at h
  | [], _ :: _, _ => by simp [assignPair]
  | p16 :: g16, p32 :: g32, h => by
    intro p hp
    simp only [assignPair, List.mem_cons] at hp
    rcases hp with rfl | hp
    · rfl
    · exact assignPair_fst_grad_none g16 g32 (by simpa using h) p hp

theorem assignGroups_fst_data : ∀ gs16 gs32 : List (List Param),
    dataOf (assignGroups gs16 gs32).1 = dataOf gs16
  | gs16, [] => by cases gs16 <;> rfl
  | [], _ :: _ => rfl
  | g16 :: gs16, g32 :: gs32 => by
    have ih := assignGroups_fst_data gs16 gs32
    simp only [dataOf] at ih ⊢
    simp [assignGroups, assignPair_fst_data g16 g32, ih]

theorem assignGroups_snd_data : ∀ gs16 gs32 : List (List Param),
    dataOf (assignGroups gs16 gs32).2 = dataOf gs32
  | gs16, [] => by cases gs16 <;> rfl
  | [], _ :: _ => rfl
  | g16 :: gs16, g32 :: gs32 => by
    have ih := assignGroups_snd_data gs16 gs32
    simp only [dataOf] at ih ⊢
    simp [assignGroups, assignPair_snd_data g16 g32, ih]

theorem assignGroups_fst_grad_none : ∀ gs16 gs32 : List (List Param),
    List.Forall₂ (fun a b : List Param => a.length = b.length) gs16 gs32 →
    ∀ g ∈ (assignGroups gs16 gs32).1, ∀ p ∈ g, p.grad = none
  | [], [], _ => by simp [assignGroups]
  | _ :: _, [], h => by cases h
  | [], _ :: _, h => by cases h
  | g16 :: gs16, g32 :: gs32, h => by
    cases h with
    | cons hlen htail =>
      intro g hg p hp
      simp only [assignGroups, List.mem_cons] at hg
      rcases hg with rfl | hg
      · exact assignPair_fst_grad_none g16 g32 (le_of_eq hlen) p hp
      · exact assignGroups_fst_grad_none gs16 gs32 htail g hg p hp

theorem unscaleGrads_data_masters {σ : Type} (st : FP16Optimizer σ) :
    dataOf (unscaleGrads st).fp32_master_param_groups
      = dataOf st.fp32_master_param_groups := by
  simp [unscaleGrads, dataOf, List.map_map, Function.comp_def]

theorem unscaleGrads_data_fp32 {σ : Type} (st : FP16Optimizer σ) :
    dataOf (unscaleGrads st).fp32_param_groups = dataOf st.fp32_param_groups := by
  simp [unscaleGrads, dataOf, List.map_map, Function.comp_def]

theorem zeroGrad_data_masters {σ : Type} (st : FP16Optimizer σ) :
    dataOf (zeroGrad st).fp32_master_param_groups
      = dataOf st.fp32_master_param_groups := by
  simp [zeroGrad, dataOf, List.map_map, Function.comp_def]

theorem zeroGrad_data_fp32 {σ : Type} (st : FP16Optimizer σ) :
    dataOf (zeroGrad st).fp32_param_groups = dataOf st.fp32_param_groups := by
  simp [zeroGrad, dataOf, List.map_map, Function.comp_def]

theorem zeroGrad_grad_none_masters {σ : Type} (st : FP16Optimizer σ) :
    ∀ g ∈ (zeroGrad st).fp32_master_param_groups, ∀ p ∈ g, p.grad = none := by
  simp only [zeroGrad, List.mem_map]
  rintro g ⟨g0, -, rfl⟩ p hp
  simp only [List.mem_map] at hp
  obtain ⟨p0, -, rfl⟩ := hp
  rfl

theorem zeroGrad_grad_none_fp32 {σ : Type} (st : FP16Optimizer σ) :
    ∀ g ∈ (zeroGrad st).fp32_param_groups, ∀ p ∈ g, p.grad = none := by
  simp only [zeroGrad, List.mem_map]
  rintro g ⟨g0, -, rfl⟩ p hp
  simp only [List.mem_map] at hp
  obtain ⟨p0, -, rfl⟩ := hp
  rfl

/-- Characterization of step's overflow branch. -/
theorem step_overflow_eq {σ : Type}
    (baseStep : σ → List (List Param) → List (List Param) →
      σ × List (List Param) × List (List Param))
    (clipFn : List (List Param) → List (List Param) →
      List (List Param) × List (List Param) × ℚ)
    (narrow : ℚ → ℚ) (dp mp : Option (List Bool)) (st : FP16Optimizer σ)
    (hov : checkOverflow (unscaleGrads (assignGradToFp32MasterParam st)) dp mp = true) :
    FP16Optimizer.step baseStep clipFn narrow dp mp st =
      (zeroGrad
        { unscaleGrads (assignGradToFp32MasterParam st) with
          grad_scaler :=
            (unscaleGrads (assignGradToFp32MasterParam st)).grad_scaler.update true },
        false, none) := by
  simp only [FP16Optimizer.step, hov, if_true]

/-- Characterization of step's success branch, scaler and result flag only. -/
theorem step_success_parts {σ : Type}
    (baseStep : σ → List (List Param) → List (List Param) →
      σ × List (List Param) × List (List Param))
    (clipFn : List (List Param) → List (List Param) →
      List (List Param) × List (List Param) × ℚ)
    (narrow : ℚ → ℚ) (dp mp : Option (List Bool)) (st : FP16Optimizer σ)
    (hov : checkOverflow (unscaleGrads (assignGradToFp32MasterParam st)) dp mp = false) :
    (FP16Optimizer.step baseStep clipFn narrow dp mp st).1.grad_scaler
      = st.grad_scaler.update false ∧
    (FP16Optimizer.step baseStep clipFn narrow dp mp st).2.1 = true := by
  simp only [FP16Optimizer.step, hov, if_false, Bool.false_eq_true]
  refine ⟨?_, by trivial⟩
  split <;> rfl

/-- C1: on every step() call the scaler observes exactly the group-agreed
overflow flag, whatever the outcome; and when that flag is true the step
returns (False, None), leaves every master, live and standalone parameter
value unchanged, releases every gradient to none, and invokes neither the
base optimizer's update nor the master-to-live copy-back (the result is
independent of the baseStep, clipFn and narrow collaborators).  The
hypotheses restrict to the states step() is actually entered in: the
construction-time 1:1 pairing of live and master groups, and gradients
present on the live parameters after backward. -/
theorem step_scaler_once_and_overflow_skips {σ : Type}
    (baseStep : σ → List (List Param) → List (List Param) →
      σ × List (List Param) × List (List Param))
    (clipFn : List (List Param) → List (List Param) →
      List (List Param) × List (List Param) × ℚ)
    (narrow : ℚ → ℚ) (dp mp : Option (List Bool)) (st : FP16Optimizer σ)
    (hpair : List.Forall₂ (fun a b : List Param => a.length = b.length)
      st.fp16_param_groups st.fp32_master_param_groups)
    (hgrad : ∀ g ∈ st.fp16_param_groups, ∀ p ∈ g, p.grad.isSome) :
    (FP16Optimizer.step baseStep clipFn narrow dp mp st).1.grad_scaler
      = st.grad_scaler.update
          (checkOverflow (unscaleGrads (assignGradToFp32MasterParam st)) dp mp) ∧
    (checkOverflow (unscaleGrads (assignGradToFp32MasterParam st)) dp mp = true →
      (FP16Optimizer.step baseStep clipFn narrow dp mp st).2 = (false, none) ∧
      dataOf (FP16Optimizer.step baseStep clipFn narrow dp mp st).1.fp16_param_groups
        = dataOf st.fp16_param_groups ∧
      dataOf (FP16Optimizer.step baseStep clipFn narrow dp mp st).1.fp32_master_param_groups
        = dataOf st.fp32_master_param_groups ∧
      dataOf (FP16Optimizer.step baseStep clipFn narrow dp mp st).1.fp32_param_groups
        = dataOf st.fp32_param_groups ∧
      (∀ g ∈ (FP16Optimizer.step baseStep clipFn narrow dp mp st).1.fp16_param_groups,
        ∀ p ∈ g, p.grad = none) ∧
      (∀ g ∈ (FP16Optimizer.step baseStep clipFn narrow dp mp st).1.fp32_master_param_groups,
        ∀ p ∈ g, p.grad = none) ∧
      (∀ g ∈ (FP16Optimizer.step baseStep clipFn narrow dp mp st).1.fp32_param_groups,
        ∀ p ∈ g, p.grad = none) ∧
      (∀ baseStep2 clipFn2 narrow2,
        FP16Optimizer.step baseStep2 clipFn2 narrow2 dp mp st
          = FP16Optimizer.step baseStep clipFn narrow dp mp st)) := by
  cases hov : checkOverflow (unscaleGrads (assignGradToFp32MasterParam st)) dp mp with
  | false =>
    refine ⟨(step_success_parts baseStep clipFn narrow dp mp st hov).1, ?_⟩
    intro h
    exact absurd h (by simp)
  | true =>
    have heq := step_overflow_eq baseStep clipFn narrow dp mp st hov
    constructor
    · rw [heq]
      rfl
    · intro _
      refine ⟨by rw [heq], ?_, ?_, ?_, ?_, ?_, ?_, ?_⟩
      · -- live fp16 values unchanged: zeroGrad and the scaler swap do not
        -- touch fp16 groups; assign and unscale keep all data
        rw [heq]
        show dataOf (assignGroups st.fp16_param_groups st.fp32_master_param_groups).1
          = dataOf st.fp16_param_groups
        exact assignGroups_fst_data _ _
      · rw [heq]
        calc dataOf (zeroGrad _).fp32_master_param_groups
            = dataOf (unscaleGrads (assignGradToFp32MasterParam st)).fp32_master_param_groups := by
              rw [zeroGrad_data_masters]
          _ = dataOf (assignGradToFp32MasterParam st).fp32_master_param_groups := by
              rw [unscaleGrads_data_masters]
          _ = dataOf st.fp32_master_param_groups := assignGroups_snd_data _ _
      · rw [heq]
        calc dataOf (zeroGrad _).fp32_param_groups
            = dataOf (unscaleGrads (assignGradToFp32MasterParam st)).fp32_param_groups := by
              rw [zeroGrad_data_fp32]
          _ = dataOf st.fp32_param_groups := unscaleGrads_data_fp32 _
      · rw [heq]
        show ∀ g ∈ (assignGroups st.fp16_param_groups st.fp32_master_param_groups).1,
          ∀ p ∈ g, p.grad = none
        exact assignGroups_fst_grad_none _ _ hpair
      · rw [heq]
        exact zeroGrad_grad_none_masters _
      · rw [heq]
        exact zeroGrad_grad_none_fp32 _
      · intro baseStep2 clipFn2 narrow2
        rw [heq, step_overflow_eq baseStep2 clipFn2 narrow2 dp mp st hov]

/-- Concrete one-parameter state with a NaN gradient on the live parameter. -/
def c1st : FP16Optimizer ℤ :=
  { fp16_param_groups := [[{ data := 2, grad := some { val := 1, finite := false } }]]
    fp32_master_param_groups := [[{ data := 2, grad := none }]]
    fp32_param_groups := [[]]
    grad_scaler := ⟨8, 1, 2, 1/2, 2, 2, none, 0, 2⟩
    clip_grad_max_norm := 0
    base_state := 0 }

/-- A trivial stand-in base-optimizer update rule. -/
def c1base : ℤ → List (List Param) → List (List Param) →
    ℤ × List (List Param) × List (List Param) := fun s m f => (s, m, f)

/-- A trivial stand-in gradient clipper. -/
def c1clip : List (List Param) → List (List Param) →
    List (List Param) × List (List Param) × ℚ := fun m f => (m, f, 0)

/-- A trivial stand-in float32-to-half narrowing. -/
def c1narrow : ℚ → ℚ := id

/-- Witness for step_scaler_once_and_overflow_skips on the concrete
overflowing state. -/
theorem step_scaler_once_and_overflow_skips_witness :
    (FP16Optimizer.step c1base c1clip c1narrow none none c1st).1.grad_scaler
      = c1st.grad_scaler.update true ∧
    (FP16Optimizer.step c1base c1clip c1narrow none none c1st).2 = (false, none) := by
  have h := step_scaler_once_and_overflow_skips c1base c1clip c1narrow none none c1st
    (by simp [c1st]) (by decide)
  have hov : checkOverflow (unscaleGrads (assignGradToFp32MasterParam c1st)) none none
      = true := by decide
  rw [hov] at h
  exact ⟨h.1, (h.2 rfl).1⟩

/-! ## Process-group resolution at construction -/

/-- The parallel modes consulted by FP16Optimizer.__init__. -/
inductive ParallelMode where
  | DATA
  | MODEL
deriving DecidableEq, Repr

/-- The global context collaborator (gpc): which parallel modes are
initialized, their world sizes, and the concrete communication group handle
registered for each mode (handles modelled as naturals). -/
structure GlobalContext where
  modeInitialized : ParallelMode → Bool
  worldSize : ParallelMode → ℕ
  groupOf : ParallelMode → ℕ

/-- _get_process_group, the local helper inside FP16Optimizer.__init__
(source lines 186-190), translated verbatim: the is_initialized check, the
world-size truthiness check and the returned group handle all use
ParallelMode.DATA — the parallel_mode argument is accepted but never used. -/
def get_process_group (gpc : GlobalContext) (parallel_mode : ParallelMode) : Option ℕ :=
  if gpc.modeInitialized ParallelMode.DATA && (gpc.worldSize ParallelMode.DATA != 0)
  then some (gpc.groupOf ParallelMode.DATA)
  else none

/-- The dp/mp group resolution of FP16Optimizer.__init__ (source lines
192-198): an explicitly supplied handle wins, otherwise the helper is
consulted with the role's parallel mode. -/
def resolveProcessGroups (gpc : GlobalContext)
    (dp_process_group mp_process_group : Option ℕ) : Option ℕ × Option ℕ :=
  let dp := match dp_process_group with
    | none => get_process_group gpc ParallelMode.DATA
    | some g => some g
  let mp := match mp_process_group with
    | none => get_process_group gpc ParallelMode.MODEL
    | some g => some g
  (dp, mp)

/-- A global context with both modes initialized and distinct groups:
DATA registered as handle 0, MODEL as handle 1, world size 2 each. -/
def bugGpc : GlobalContext :=
  { modeInitialized := fun _ => true
    worldSize := fun _ => 2
    groupOf := fun m => match m with
      | ParallelMode.DATA => 0
      | ParallelMode.MODEL => 1 }

/-- C2 (code evaluated at the failing input): with both roles active and no
groups passed explicitly, the model-parallel role resolves to the
data-parallel group handle 0 instead of its own registered handle 1,
because _get_process_group ignores its parallel_mode argument and always
queries ParallelMode.DATA. -/
theorem model_parallel_role_resolves_to_data_group :
    resolveProcessGroups bugGpc none none = (some 0, some 0) ∧
    bugGpc.groupOf ParallelMode.MODEL = 1 ∧
    (resolveProcessGroups bugGpc none none).2 ≠ some (bugGpc.groupOf ParallelMode.MODEL) := by
  refine ⟨rfl, rfl, ?_⟩
  decide

/-! ## Construction-time parameter partition -/

/-- A parameter as seen by the construction loop: its requires_grad flag,
its runtime type string as returned by param.type(), and its value. -/
structure RawParam where
  requires_grad : Bool
  ptype : String
  data : ℚ
deriving DecidableEq, Repr

/-- Result of partitioning one parameter group at construction:
the base optimizer's rewritten group (masters substituted into the slots of
the fp16 parameters) and the three tracked lists. -/
structure BuiltGroup where
  opt_params : List RawParam
  fp16_params : List RawParam
  fp32_master_params : List RawParam
  fp32_params : List RawParam
deriving DecidableEq, Repr

/-- The per-group partition loop of FP16Optimizer.__init__ (source lines
213-247): parameters without requires_grad are passed over; a cuda Half
parameter is recorded and shadowed by a float32 clone (same values,
float32 type) which replaces it in the optimizer slot; a cuda Float
parameter is recorded standalone; anything else raises a TypeError,
aborting construction.  copy_tensor_parallel_attributes and the re-keying
of pre-existing per-parameter optimizer state act on collaborator metadata
outside this value model. -/
def buildGroup : List RawParam → Except String BuiltGroup
  | [] => Except.ok ⟨[], [], [], []⟩
  | p :: rest =>
    if p.requires_grad then
      if p.ptype ∈ ["torch.cuda.HalfTensor"] then
        let fp32_param : RawParam := { p with ptype := "torch.cuda.FloatTensor" }
        match buildGroup rest with
        | Except.ok b =>
          Except.ok ⟨fp32_param :: b.opt_params, p :: b.fp16_params,
            fp32_param :: b.fp32_master_params, b.fp32_params⟩
        | Except.error e => Except.error e
      else if p.ptype = "torch.cuda.FloatTensor" then
        match buildGroup rest with
        | Except.ok b =>
          Except.ok ⟨p :: b.opt_params, b.fp16_params, b.fp32_master_params,
            p :: b.fp32_params⟩
        | Except.error e => Except.error e
      else
        Except.error ("Expected parameter of type torch.cuda.FloatTensor "
          ++ "or torch.cuda.HalfTensor, but got " ++ p.ptype)
    else
      match buildGroup rest with
      | Except.ok b =>
        Except.ok ⟨p :: b.opt_params, b.fp16_params, b.fp32_master_params, b.fp32_params⟩
      | Except.error e => Except.error e

/-- The outer loop of FP16Optimizer.__init__ over all parameter groups. -/
def buildGroups : List (List RawParam) → Except String (List BuiltGroup)
  | [] => Except.ok []
  | g :: gs =>
    match buildGroup g with
    | Except.ok b =>
      match buildGroups gs with
      | Except.ok bs => Except.ok (b :: bs)
      | Except.error e => Except.error e
    | Except.error e => Except.error e

/-- A bf16 parameter that requires gradients. -/
def bf16Param : RawParam := ⟨true, "torch.cuda.BFloat16Tensor", 1⟩

/-- A cuda half-precision parameter that requires gradients. -/
def halfParam : RawParam := ⟨true, "torch.cuda.HalfTensor", 2⟩

/-- A cuda float32 parameter that requires gradients. -/
def floatParam : RawParam := ⟨true, "torch.cuda.FloatTensor", 3⟩

/-- C7 (code evaluated at the failing input): construction rejects a
torch.cuda.BFloat16Tensor parameter with a TypeError even though half and
float32 parameters are accepted — contradicting the claim (and the class
docstring "Float16 optimizer for fp16 and bf16 data types") that bf16 is
supported like fp16. -/
theorem bf16_param_rejected_at_construction :
    buildGroups [[bf16Param]] = Except.error
      ("Expected parameter of type torch.cuda.FloatTensor "
        ++ "or torch.cuda.HalfTensor, but got torch.cuda.BFloat16Tensor") ∧
    buildGroups [[halfParam, floatParam]] = Except.ok
      [⟨[{ halfParam with ptype := "torch.cuda.FloatTensor" }, floatParam],
        [halfParam],
        [{ halfParam with ptype := "torch.cuda.FloatTensor" }],
        [floatParam]⟩] := by
  constructor <;> rfl

/-- The three tracked lists of a built group (the rewritten optimizer slots
are left out). -/
def trackedOf (b : BuiltGroup) : List RawParam × List RawParam × List RawParam :=
  (b.fp16_params, b.fp32_master_params, b.fp32_params)

/-- Reference recursion computing only the three tracked lists of a group. -/
def trackedGroup : List RawParam → Except String (List RawParam × List RawParam × List RawParam)
  | [] => Except.ok ([], [], [])
  | p :: rest =>
    if p.requires_grad then
      if p.ptype ∈ ["torch.cuda.HalfTensor"] then
        match trackedGroup rest with
        | Except.ok r =>
          Except.ok (p :: r.1, { p with ptype := "torch.cuda.FloatTensor" } :: r.2.1, r.2.2)
        | Except.error e => Except.error e
      else if p.ptype = "torch.cuda.FloatTensor" then
        match trackedGroup rest with
        | Except.ok r => Except.ok (r.1, r.2.1, p :: r.2.2)
        | Except.error e => Except.error e
      else
        Except.error ("Expected parameter of type torch.cuda.FloatTensor "
          ++ "or torch.cuda.HalfTensor, but got " ++ p.ptype)
    else trackedGroup rest

theorem buildGroup_tracked (ps : List RawParam) :
    (buildGroup ps).map trackedOf = trackedGroup ps := by
  induction ps with
  | nil => rfl
  | cons p rest ih =>
    cases hb : buildGroup rest with
    | ok b =>
      rw [hb] at ih
      simp only [Except.map] at ih
      simp only [buildGroup, trackedGroup, hb, ← ih]
      split
      · split
        · simp [Except.map, trackedOf]
        · split
          · simp [Except.map, trackedOf]
          · simp [Except.map]
      · simp [Except.map, trackedOf]
    | error e =>
      rw [hb] at ih
      simp only [Except.map] at ih
      simp only [buildGroup, trackedGroup, hb, ← ih]
      split
      · split
        · simp [Except.map]
        · split
          · simp [Except.map]
          · simp [Except.map]
      · simp [Except.map]

theorem trackedGroup_filter (ps : List RawParam) :
    trackedGroup (ps.filter fun p => p.requires_grad) = trackedGroup ps := by
  induction ps with
  | nil => rfl
  | cons p rest ih =>
    by_cases hrg : p.requires_grad
    · rw [List.filter_cons_of_pos (by simpa using hrg)]
      simp only [trackedGroup, hrg, if_true, ih]
    · rw [List.filter_cons_of_neg (by simpa using hrg)]
      have hrg' : p.requires_grad = false := by
        simpa [Bool.not_eq_true] using hrg
      simp only [trackedGroup, hrg', Bool.false_eq_true, if_false, ih]

/-- C10: every parameter whose requires_grad flag is false is silently
skipped at construction, whatever its dtype: the three tracked lists
(fp16, fp32 masters, standalone fp32) computed from any group list equal
the ones computed after deleting all such parameters, and the construction
errors exactly when it errors without them — so a frozen parameter gets no
master, lands in no tracked group, and never raises the precision
TypeError. -/
theorem frozen_params_skipped_at_construction (gs : List (List RawParam)) :
    (buildGroups (gs.map (List.filter fun p => p.requires_grad))).map (List.map trackedOf)
      = (buildGroups gs).map (List.map trackedOf) := by
  induction gs with
  | nil => rfl
  | cons g rest ih =>
    have hkey : (buildGroup (g.filter fun p => p.requires_grad)).map trackedOf
        = (buildGroup g).map trackedOf := by
      rw [buildGroup_tracked, buildGroup_tracked, trackedGroup_filter]
    cases hb : buildGroup g with
    | error e =>
      have hf : buildGroup (g.filter fun p => p.requires_grad) = Except.error e := by
        rw [hb] at hkey
        cases hf0 : buildGroup (g.filter fun p => p.requires_grad) with
        | ok b' => rw [hf0] at hkey; simp [Except.map] at hkey
        | error e' =>
          rw [hf0] at hkey
          simp only [Except.map, Except.error.injEq] at hkey
          rw [hkey]
      simp [buildGroups, hb, hf, Except.map]
    | ok b =>
      obtain ⟨b', hf, htr⟩ : ∃ b', buildGroup (g.filter fun p => p.requires_grad)
          = Except.ok b' ∧ trackedOf b' = trackedOf b := by
        rw [hb] at hkey
        cases hf0 : buildGroup (g.filter fun p => p.requires_grad) with
        | ok b' =>
          rw [hf0] at hkey
          simp only [Except.map, Except.ok.injEq] at hkey
          exact ⟨b', rfl, hkey⟩
        | error e' => rw [hf0] at hkey; simp [Except.map] at hkey
      cases hbs : buildGroups rest with
      | error e =>
        have hfs : buildGroups (rest.map (List.filter fun p => p.requires_grad))
            = Except.error e := by
          rw [hbs] at ih
          cases hfs0 : buildGroups (rest.map (List.filter fun p => p.requires_grad)) with
          | ok bs' => rw [hfs0] at ih; simp [Except.map] at ih
          | error e' =>
            rw [hfs0] at ih
            simp only [Except.map, Except.error.injEq] at ih
            rw [ih]
        simp [buildGroups, hb, hf, hbs, hfs, Except.map]
      | ok bs =>
        obtain ⟨bs', hfs, htrs⟩ : ∃ bs', buildGroups (rest.map
            (List.filter fun p => p.requires_grad)) = Except.ok bs' ∧
            bs'.map trackedOf = bs.map trackedOf := by
          rw [hbs] at ih
          cases hfs0 : buildGroups (rest.map (List.filter fun p => p.requires_grad)) with
          | ok bs' =>
            rw [hfs0] at ih
            simp only [Except.map, Except.ok.injEq] at ih
            exact ⟨bs', rfl, ih⟩
          | error e' => rw [hfs0] at ih; simp [Except.map] at ih
        simp [buildGroups, hb, hf, hbs, hfs, Except.map, htr, htrs]

/-! ## Master/live pairing -/

theorem buildGroup_pairing (ps : List RawParam) (b : BuiltGroup)
    (h : buildGroup ps = Except.ok b) :
    List.Forall₂ (fun p q : RawParam => q.data = p.data ∧ q.ptype = "torch.cuda.FloatTensor")
      b.fp16_params b.fp32_master_params := by
  induction ps generalizing b with
  | nil =>
    simp only [buildGroup, Except.ok.injEq] at h
    subst h
    exact List.Forall₂.nil
  | cons p rest ih =>
    cases hb : buildGroup rest with
    | ok b0 =>
      simp only [buildGroup, hb] at h
      split at h
      · split at h
        · simp only [Except.ok.injEq] at h
          subst h
          exact List.Forall₂.cons ⟨rfl, rfl⟩ (ih b0 hb)
        · split at h
          · simp only [Except.ok.injEq] at h
            subst h
            exact ih b0 hb
          · simp at h
      · simp only [Except.ok.injEq] at h
        subst h
        exact ih b0 hb
    | error e =>
      simp only [buildGroup, hb] at h
      split at h
      · split at h
        · simp at h
        · split at h <;> simp at h
      · simp at h

theorem copyPair_spec (narrow : ℚ → ℚ) : ∀ g16 g32 : List Param, g16.length = g32.length →
    List.Forall₂ (fun p16 p32 : Param => p16.data = narrow p32.data)
      (copyPair narrow g32 g16) g32
  | [], [], _ => List.Forall₂.nil
  | [], _ :: _, h => by simp at h
  | _ :: _, [], h => by simp at h
  | p16 :: g16, p32 :: g32, h => by
    simp only [copyPair]
    exact List.Forall₂.cons rfl (copyPair_spec narrow g16 g32 (by simpa using h))

theorem copyBackGroups_spec (narrow : ℚ → ℚ) :
    ∀ gs16 gs32 : List (List Param),
    List.Forall₂ (fun a b : List Param => a.length = b.length) gs16 gs32 →
    List.Forall₂ (List.Forall₂ (fun p16 p32 : Param => p16.data = narrow p32.data))
      (copyBackGroups narrow gs32 gs16) gs32
  | [], [], _ => List.Forall₂.nil
  | [], _ :: _, h => by cases h
  | _ :: _, [], h => by cases h
  | g16 :: gs16, g32 :: gs32, h => by
    cases h with
    | cons hlen htail =>
      simp only [copyBackGroups]
      exact List.Forall₂.cons (copyPair_spec narrow g16 g32 hlen)
        (copyBackGroups_spec narrow gs16 gs32 htail)

/-- Equal value tables force groupwise equal lengths. -/
theorem dataOf_eq_forall₂_length : ∀ xs ys : List (List Param), dataOf xs = dataOf ys →
    List.Forall₂ (fun a b : List Param => a.length = b.length) xs ys
  | [], [], _ => List.Forall₂.nil
  | [], _ :: _, h => by simp [dataOf] at h
  | _ :: _, [], h => by simp [dataOf] at h
  | x :: xs, y :: ys, h => by
    simp only [dataOf, List.map_cons, List.cons.injEq] at h
    refine List.Forall₂.cons ?_ (dataOf_eq_forall₂_length xs ys ?_)
    · have := congrArg List.length h.1
      simpa using this
    · simpa [dataOf] using h.2

theorem forall₂_length_trans {xs ys zs : List (List Param)}
    (h1 : List.Forall₂ (fun a b : List Param => a.length = b.length) xs ys)
    (h2 : List.Forall₂ (fun a b : List Param => a.length = b.length) ys zs) :
    List.Forall₂ (fun a b : List Param => a.length = b.length) xs zs := by
  induction h1 generalizing zs with
  | nil => cases h2; exact List.Forall₂.nil
  | cons hxy htail ih =>
    cases h2 with
    | cons hyz htail2 => exact List.Forall₂.cons (hxy.trans hyz) (ih htail2)

/-- In the success branch, the resulting live fp16 groups are exactly the
copy-back of the resulting masters over the (grad-cleared) live groups. -/
theorem step_success_copyback {σ : Type}
    (baseStep : σ → List (List Param) → List (List Param) →
      σ × List (List Param) × List (List Param))
    (clipFn : List (List Param) → List (List Param) →
      List (List Param) × List (List Param) × ℚ)
    (narrow : ℚ → ℚ) (dp mp : Option (List Bool)) (st : FP16Optimizer σ)
    (hov : checkOverflow (unscaleGrads (assignGradToFp32MasterParam st)) dp mp = false) :
    (FP16Optimizer.step baseStep clipFn narrow dp mp st).1.fp16_param_groups
      = copyBackGroups narrow
          (FP16Optimizer.step baseStep clipFn narrow dp mp st).1.fp32_master_param_groups
          (assignGroups st.fp16_param_groups st.fp32_master_param_groups).1 := by
  simp only [FP16Optimizer.step, hov, if_false, Bool.false_eq_true]
  split <;> rfl

/-- C8: (construction) each group's masters pair 1:1 and in order with its
half-precision entries — equal counts, each master a float32 buffer holding
the same values; (step) after every step() that returns success, every live
half parameter's value equals its paired master's value narrowed to half
precision (the shape hypotheses say that live/master pairing held on entry
and that the collaborator update rule kept the masters' shapes, as a real
base optimizer does). -/
theorem master_pairing_and_copyback {σ : Type} :
    (∀ (ps : List RawParam) (b : BuiltGroup), buildGroup ps = Except.ok b →
      b.fp16_params.length = b.fp32_master_params.length ∧
      List.Forall₂ (fun p q : RawParam =>
        q.data = p.data ∧ q.ptype = "torch.cuda.FloatTensor")
        b.fp16_params b.fp32_master_params) ∧
    (∀ (baseStep : σ → List (List Param) → List (List Param) →
        σ × List (List Param) × List (List Param))
      (clipFn : List (List Param) → List (List Param) →
        List (List Param) × List (List Param) × ℚ)
      (narrow : ℚ → ℚ) (dp mp : Option (List Bool)) (st : FP16Optimizer σ),
      checkOverflow (unscaleGrads (assignGradToFp32MasterParam st)) dp mp = false →
      List.Forall₂ (fun a b : List Param => a.length = b.length)
        st.fp16_param_groups
        (FP16Optimizer.step baseStep clipFn narrow dp mp st).1.fp32_master_param_groups →
      (FP16Optimizer.step baseStep clipFn narrow dp mp st).2.1 = true ∧
      List.Forall₂ (List.Forall₂ (fun p16 pm : Param => p16.data = narrow pm.data))
        (FP16Optimizer.step baseStep clipFn narrow dp mp st).1.fp16_param_groups
        (FP16Optimizer.step baseStep clipFn narrow dp mp st).1.fp32_master_param_groups) := by
  constructor
  · intro ps b h
    have hf := buildGroup_pairing ps b h
    exact ⟨hf.length_eq, hf⟩
  · intro baseStep clipFn narrow dp mp st hov hshape
    refine ⟨(step_success_parts baseStep clipFn narrow dp mp st hov).2, ?_⟩
    rw [step_success_copyback baseStep clipFn narrow dp mp st hov]
    refine copyBackGroups_spec narrow _ _ ?_
    have hassign : List.Forall₂ (fun a b : List Param => a.length = b.length)
        (assignGroups st.fp16_param_groups st.fp32_master_param_groups).1
        st.fp16_param_groups :=
      dataOf_eq_forall₂_length _ _ (assignGroups_fst_data _ _)
    exact forall₂_length_trans hassign hshape

/-- Concrete one-parameter state with a finite gradient (no overflow). -/
def c8st : FP16Optimizer ℤ :=
  { fp16_param_groups := [[{ data := 2, grad := some { val := 1, finite := true } }]]
    fp32_master_param_groups := [[{ data := 5, grad := none }]]
    fp32_param_groups := [[]]
    grad_scaler := ⟨8, 1, 2, 1/2, 2, 2, none, 0, 2⟩
    clip_grad_max_norm := 0
    base_state := 0 }

/-- Witness for master_pairing_and_copyback on concrete inputs. -/
theorem master_pairing_and_copyback_witness :
    List.Forall₂ (fun p q : RawParam => q.data = p.data ∧ q.ptype = "torch.cuda.FloatTensor")
      [halfParam] [{ halfParam with ptype := "torch.cuda.FloatTensor" }] ∧
    (FP16Optimizer.step c1base c1clip c1narrow none none c8st).2.1 = true ∧
    List.Forall₂ (List.Forall₂ (fun p16 pm : Param => p16.data = c1narrow pm.data))
      (FP16Optimizer.step c1base c1clip c1narrow none none c8st).1.fp16_param_groups
      (FP16Optimizer.step c1base c1clip c1narrow none none c8st).1.fp32_master_param_groups := by
  have h := master_pairing_and_copyback (σ := ℤ)
  have h1 := h.1 [halfParam]
    ⟨[{ halfParam with ptype := "torch.cuda.FloatTensor" }], [halfParam],
      [{ halfParam with ptype := "torch.cuda.FloatTensor" }], []⟩ rfl
  have h2 := h.2 c1base c1clip c1narrow none none c8st (by decide)
    (List.Forall₂.cons rfl List.Forall₂.nil)
  exact ⟨h1.2, h2.1, h2.2⟩

/-! ## Checkpointing -/

/-- DynamicGradScaler.state_dict (source lines 127-133). -/
structure ScalerStateDict where
  max_scale : Option ℚ
  scale : ℚ
  growth_tracker : ℕ
  hysteresis_tracker : ℤ
deriving DecidableEq, Repr

/-- DynamicGradScaler.state_dict (source lines 127-133). -/
def DynamicGradScaler.state_dict (s : DynamicGradScaler) : ScalerStateDict :=
  { max_scale := s.max_scale
    scale := s.scale
    growth_tracker := s.growth_tracker
    hysteresis_tracker := s.hysteresis_tracker }

/-- DynamicGradScaler.load_state_dict (source lines 135-139): exactly the
four checkpointed fields are overwritten. -/
def DynamicGradScaler.load_state_dict (s : DynamicGradScaler) (d : ScalerStateDict) :
    DynamicGradScaler :=
  { s with
    scale := d.scale
    growth_tracker := d.growth_tracker
    hysteresis_tracker := d.hysteresis_tracker
    max_scale := d.max_scale }

/-- FP16Optimizer.state_dict's result (source lines 364-370): the wrapped
optimizer's state (a collaborator round-tripping verbatim per the spec,
modelled by the opaque value itself), the scaler state, and the master
values.  The latter two are optional because load_state_dict (source lines
372-385) guards on their presence. -/
structure FP16StateDict (σ : Type) where
  optimizer : σ
  grad_scaler : Option ScalerStateDict
  fp32_master_param_groups : Option (List (List Param))

/-- FP16Optimizer.state_dict (source lines 364-370); the grad scaler is
always present (construction asserts one was supplied). -/
def FP16Optimizer.state_dict {σ : Type} (st : FP16Optimizer σ) : FP16StateDict σ :=
  { optimizer := st.base_state
    grad_scaler := some st.grad_scaler.state_dict
    fp32_master_param_groups := some st.fp32_master_param_groups }

/-- The in-place positional copy of one master group from a checkpoint
group (source lines 382-385): current_param.data.copy_(ckpt_param.data)
over zip(current_group, ckpt_group); entries beyond the zip are kept. -/
def copyMasterPair : List Param → List Param → List Param
  | [], _ => []
  | ps, [] => ps
  | cur :: ps, ck :: cks => { cur with data := ck.data } :: copyMasterPair ps cks

/-- The group-level zip of the master restore loop. -/
def copyMasterGroups : List (List Param) → List (List Param) → List (List Param)
  | [], _ => []
  | gs, [] => gs
  | g :: gs, cg :: cgs => copyMasterPair g cg :: copyMasterGroups gs cgs

/-- FP16Optimizer.load_state_dict (source lines 372-385). -/
def FP16Optimizer.load_state_dict {σ : Type} (st : FP16Optimizer σ) (sd : FP16StateDict σ) :
    FP16Optimizer σ :=
  { st with
    base_state := sd.optimizer
    grad_scaler :=
      match sd.grad_scaler with
      | some d => st.grad_scaler.load_state_dict d
      | none => st.grad_scaler
    fp32_master_param_groups :=
      match sd.fp32_master_param_groups with
      | some ckpt => copyMasterGroups st.fp32_master_param_groups ckpt
      | none => st.fp32_master_param_groups }

theorem copyMasterPair_self : ∀ ps : List Param, copyMasterPair ps ps = ps
  | [] => rfl
  | p :: ps => by simp [copyMasterPair, copyMasterPair_self ps]

theorem copyMasterGroups_self : ∀ gs : List (List Param), copyMasterGroups gs gs = gs
  | [] => rfl
  | g :: gs => by simp [copyMasterGroups, copyMasterPair_self g, copyMasterGroups_self gs]

theorem copyMasterPair_get : ∀ (cur ck : List Param) (j : ℕ),
    (copyMasterPair cur ck)[j]? = (cur[j]?).map fun p =>
      match ck[j]? with
      | some c => { p with data := c.data }
      | none => p
  | [], ck, j => by simp [copyMasterPair]
  | p :: ps, [], j => by
    simp only [copyMasterPair, List.getElem?_nil]
    cases (p :: ps)[j]? <;> rfl
  | p :: ps, c :: cks, 0 => by simp [copyMasterPair]
  | p :: ps, c :: cks, j + 1 => by
    simp [copyMasterPair, copyMasterPair_get ps cks j]

theorem copyMasterGroups_get : ∀ (cur ck : List (List Param)) (i : ℕ),
    (copyMasterGroups cur ck)[i]? = (cur[i]?).map fun g =>
      match ck[i]? with
      | some cg => copyMasterPair g cg
      | none => g
  | [], ck, i => by simp [copyMasterGroups]
  | g :: gs, [], i => by
    simp only [copyMasterGroups, List.getElem?_nil]
    cases (g :: gs)[i]? <;> rfl
  | g :: gs, cg :: cgs, 0 => by simp [copyMasterGroups]
  | g :: gs, cg :: cgs, i + 1 => by
    simp [copyMasterGroups, copyMasterGroups_get gs cgs i]

/-- C9: load_state_dict(state_dict()) on an idle optimizer is a no-op on
every master value, the scaler state (scale, max_scale, growth_tracker,
hysteresis_tracker) and the base optimizer's state — the whole state is
unchanged; and any load_state_dict restores masters by pure position-for-
position in-place copy: slot (i, j) exists afterwards exactly when it
existed before (no reallocation or reordering), holding the prior parameter
with only its value overwritten by the positionally paired checkpoint value
when the checkpoint covers that position. -/
theorem load_state_dict_roundtrip_and_positional {σ : Type} (st : FP16Optimizer σ) :
    st.load_state_dict st.state_dict = st ∧
    (∀ (sd : FP16StateDict σ) (ckpt : List (List Param)),
      sd.fp32_master_param_groups = some ckpt →
      ∀ i j : ℕ,
        ((st.load_state_dict sd).fp32_master_param_groups[i]?.bind fun g => g[j]?)
          = (st.fp32_master_param_groups[i]?.bind fun g => g[j]?).map fun p =>
              match ckpt[i]?.bind fun g => g[j]? with
              | some c => { p with data := c.data }
              | none => p) := by
  constructor
  · show ({ st with
      base_state := st.base_state
      grad_scaler := st.grad_scaler.load_state_dict st.grad_scaler.state_dict
      fp32_master_param_groups :=
        copyMasterGroups st.fp32_master_param_groups st.fp32_master_param_groups }
      : FP16Optimizer σ) = st
    rw [copyMasterGroups_self]
    rfl
  · intro sd ckpt hck i j
    have hmg : (st.load_state_dict sd).fp32_master_param_groups
        = copyMasterGroups st.fp32_master_param_groups ckpt := by
      show (match sd.fp32_master_param_groups with
        | some c => copyMasterGroups st.fp32_master_param_groups c
        | none => st.fp32_master_param_groups) = _
      rw [hck]
    rw [hmg, copyMasterGroups_get]
    cases hcur : st.fp32_master_param_groups[i]? with
    | none => rfl
    | some g =>
      cases hcki : ckpt[i]? with
      | none =>
        simp only [Option.map_some, Option.some_bind]
        cases hgj : g[j]? <;> simp [hgj]
      | some cg =>
        simp only [Option.map_some, Option.some_bind]
        simp [copyMasterPair_get]

/-- Concrete state and checkpoint for the load_state_dict witness. -/
def c9st : FP16Optimizer ℤ :=
  { fp16_param_groups := [[{ data := 2, grad := none }]]
    fp32_master_param_groups := [[{ data := 5, grad := none }]]
    fp32_param_groups := [[]]
    grad_scaler := ⟨8, 1, 2, 1/2, 2, 2, none, 0, 2⟩
    clip_grad_max_norm := 0
    base_state := 0 }

/-- A checkpointed master table with a different value. -/
def c9ck : List (List Param) := [[{ data := 7, grad := none }]]

/-- A checkpoint carrying only master values. -/
def c9sd : FP16StateDict ℤ := ⟨3, none, some c9ck⟩

/-- Witness for load_state_dict_roundtrip_and_positional. -/
theorem load_state_dict_roundtrip_and_positional_witness :
    c9st.load_state_dict c9st.state_dict = c9st ∧
    ((c9st.load_state_dict c9sd).fp32_master_param_groups[0]?.bind fun g => g[0]?)
      = (c9st.fp32_master_param_groups[0]?.bind fun g => g[0]?).map fun p =>
          match c9ck[0]?.bind fun g => g[0]? with
          | some c => { p with data := c.data }
          | none => p := by
  have h := load_state_dict_roundtrip_and_positional c9st
  exact ⟨h.1, h.2 c9sd c9ck rfl 0 0⟩

end ColossalAI
